import Mathlib

/-!
Verification development for the gdelt_analysis repository.

The definitions below are shallow embeddings of the Python source:

* `attemptLoop`, `download_gz`  — `_download_gz` in `gdelt.py` (the fetch
  cache with retry loop); the network is modelled by a list of `NetEvent`s,
  one consumed per `requests.get` call, and the on-disk cache entry for the
  stamp by an `Option (List Nat)` byte payload.
* `streamRecords` — the per-line loop of `iter_gqg_minutes` in `gdelt.py`;
  `json.loads` is abstracted by classifying each line as blank, well-formed
  (carrying its parsed record) or malformed, which is the only aspect of the
  line the code inspects.
* `runCycle` — the per-stamp loop of `iter_gqg_minutes`, with exception
  propagation made explicit in the returned abort flag.
* `relevantRecord`, `KEYWORDS` — the language/keyword filter of
  `query_gdelt` in `gdelt.py`.
* `collect_alert_impacts`, `deduplicate_impacts`, `update_last_sent`,
  `send_consolidated_alert`, `processSubscriber` — the alert engine of
  `cron_job.py` (delivery success is a Boolean oracle).
* `appendBlocks`, `buildPrompt2` — the phase-2 prompt budget loop of
  `send_to_openrouter` in `gdelt.py`.
* `alertLoop`, `process_analysis` — `process_analysis` in `gdelt.py`.
* `save_subscriber`, `remove_subscriber` — the subscriber store of `app.py`.

Strings are modelled as `List Char` (Python `len` counts code points, which
matches `List.length` on `List Char`).
-/

namespace GdeltAnalysis

/-! ## FetchCache: `_download_gz` (gdelt.py lines 38-66) -/

/-- One network interaction: an HTTP response with a status code and body,
or a timeout exception raised by `requests.get`. -/
inductive NetEvent where
  | resp (status : Nat) (content : List Nat)
  | timeout
deriving DecidableEq, Repr

/-- Result of one `_download_gz` invocation: a payload (HTTP 200), a gap
(HTTP 404, empty minute), or a hard failure (timeout exception or
`raise_for_status` after retries are exhausted). -/
inductive DlOutcome where
  | success (content : List Nat)
  | gap
  | failure
deriving DecidableEq, Repr

/-- The retry loop of `_download_gz`: `for attempt in range(retries + 1)`.
Each iteration consumes one `NetEvent`; returns the outcome together with
the number of network calls performed.  A 200 returns the body, a 404
returns the gap marker, any other status is retried while attempts remain,
and a timeout exception propagates immediately (the code has no handler
around `requests.get`). -/
def attemptLoop : Nat → List NetEvent → DlOutcome × Nat
  | 0, _ => (DlOutcome.failure, 0)
  | _ + 1, [] => (DlOutcome.failure, 0)
  | _ + 1, NetEvent.timeout :: _ => (DlOutcome.failure, 1)
  | n + 1, NetEvent.resp s c :: rest =>
    if s = 200 then (DlOutcome.success c, 1)
    else if s = 404 then (DlOutcome.gap, 1)
    else
      let r := attemptLoop n rest
      (r.1, r.2 + 1)

/-- Result of `_download_gz` together with the cache entry for the stamp
after the call and the number of network fetches performed. -/
structure DlResult where
  outcome : DlOutcome
  cache : Option (List Nat)
  fetches : Nat
deriving DecidableEq, Repr

/-- `_download_gz` (gdelt.py lines 38-66): if a cache entry for the stamp
exists it is returned with no network access; otherwise the retry loop
runs, and only a successful (HTTP 200) body is written to the cache before
being returned — a 404 or a failure caches nothing. -/
def download_gz (cache : Option (List Nat)) (events : List NetEvent)
    (retries : Nat) : DlResult :=
  match cache with
  | some b => ⟨DlOutcome.success b, some b, 0⟩
  | none =>
    let r := attemptLoop (retries + 1) events
    match r.1 with
    | DlOutcome.success c => ⟨DlOutcome.success c, some c, r.2⟩
    | o => ⟨o, none, r.2⟩

/-! ## Record stream: `iter_gqg_minutes` (gdelt.py lines 68-82) -/

/-- One line of a decompressed partition payload, classified the way the
code observes it: whitespace-only (`line.strip()` falsy), a well-formed
JSON line carrying its parsed record, or a malformed line on which
`json.loads` raises. -/
inductive Line (α : Type) where
  | blank : Line α
  | good : α → Line α
  | bad : Line α
deriving DecidableEq, Repr

/-- Whether a line is malformed. -/
def Line.isBad {α : Type} : Line α → Bool
  | Line.bad => true
  | _ => false

/-- The per-line loop of `iter_gqg_minutes`: blank lines are skipped,
well-formed lines are yielded, and `json.loads` on a malformed line raises
`JSONDecodeError`, which propagates out of the generator.  Returns the
records yielded before any exception together with an abort flag. -/
def streamRecords {α : Type} : List (Line α) → List α × Bool
  | [] => ([], false)
  | Line.blank :: t => streamRecords t
  | Line.good r :: t =>
    let p := streamRecords t
    (r :: p.1, p.2)
  | Line.bad :: _ => ([], true)

/-- The records of all well-formed lines of a payload. -/
def goodRecords {α : Type} : List (Line α) → List α
  | [] => []
  | Line.good r :: t => r :: goodRecords t
  | _ :: t => goodRecords t

/-- The network situation of one partition stamp within a cycle: its cache
entry and the network events its fetch attempts would observe. -/
structure StampFetch where
  cache : Option (List Nat)
  events : List NetEvent
deriving DecidableEq, Repr

/-- Whether a download outcome is a hard failure. -/
def DlOutcome.isFailure : DlOutcome → Bool
  | DlOutcome.failure => true
  | _ => false

/-- The payload of a successful download outcome, if any. -/
def DlOutcome.payload : DlOutcome → Option (List Nat)
  | DlOutcome.success b => some b
  | _ => none

/-- The per-stamp loop of `iter_gqg_minutes` (gdelt.py lines 73-77) with
the default `retries = 2`: a 404 gap is skipped with `continue`, a payload
is yielded, and a hard failure raises out of the generator, ending the
cycle — no later stamp is processed.  Returns the payloads yielded in
order together with an abort flag. -/
def runCycle : List StampFetch → List (List Nat) × Bool
  | [] => ([], false)
  | s :: t =>
    match (download_gz s.cache s.events 2).outcome with
    | DlOutcome.failure => ([], true)
    | DlOutcome.gap => runCycle t
    | DlOutcome.success b =>
      let p := runCycle t
      (b :: p.1, p.2)

/-! ## RelevanceFilter: `query_gdelt` (gdelt.py lines 86-112) -/

/-- The space character used by Python `' '.join`. -/
def spaceChar : Char := Char.ofNat 32

/-- Python `' '.join` on a list of strings. -/
def joinSpace : List (List Char) → List Char
  | [] => []
  | [x] => x
  | x :: y :: t => x ++ spaceChar :: joinSpace (y :: t)

/-- Python `needle in hay` prefix test helper. -/
def matchesAt : List Char → List Char → Bool
  | [], _ => true
  | _ :: _, [] => false
  | a :: as, b :: bs => a = b && matchesAt as bs

/-- Python substring containment `needle in hay`. -/
def strContains (needle : List Char) : List Char → Bool
  | [] => matchesAt needle []
  | c :: t => matchesAt needle (c :: t) || strContains needle t

/-- Python `str.lower` (modelled per character). -/
def lowerStr (s : List Char) : List Char := s.map Char.toLower

/-- One quote object of a GQG record (only the `quote` field is read). -/
structure Quote where
  quote : List Char
deriving DecidableEq, Repr

/-- A parsed GQG record, with the fields `query_gdelt` reads. -/
structure GRecord where
  lang : List Char
  title : List Char
  quotes : List Quote
deriving DecidableEq, Repr

/-- The configured keyword list (gdelt.py line 20), verbatim. -/
def KEYWORDS : List (List Char) :=
  ["trump".data, "china".data, "tariff".data, "LLM".data,
   "data center".data, "NVidia".data, "OpenAI".data]

/-- The filter of `query_gdelt` (gdelt.py lines 93-110): a record passes
iff its `lang` equals `ENGLISH` and some configured keyword — as written,
not lowercased — is a substring of the lowercased title or of the
lowercased space-join of the quote texts. -/
def relevantRecord (keywords : List (List Char)) (r : GRecord) : Bool :=
  if r.lang = "ENGLISH".data then
    let title := lowerStr r.title
    let quotesText := lowerStr (joinSpace (r.quotes.map Quote.quote))
    keywords.any fun k => strContains k title || strContains k quotesText
  else false

/-- Modelled from the spec: the filtering rule of section 4.3 — a record
is relevant iff its language tag equals the target language and at least
one configured keyword occurs case-insensitively (both sides lowercased)
as a substring of the title or of the concatenation of the excerpt
fields.  Used only to compare the spec rule with `relevantRecord`. -/
def specRelevantRecord (targetLang : List Char) (keywords : List (List Char))
    (r : GRecord) : Bool :=
  r.lang = targetLang &&
    (keywords.any fun k =>
      strContains (lowerStr k) (lowerStr r.title) ||
      strContains (lowerStr k) (lowerStr (joinSpace (r.quotes.map Quote.quote))))

/-! ## Alert engine data model (cron_job.py) -/

/-- One impact entry of an analysis document payload. -/
structure Impact where
  ticker : List Char
  company : List Char
  likelihood : Int
  reason : List Char
deriving DecidableEq, Repr

/-- A persisted analysis document: creation timestamp (from the file
name), extracted impacts and summary. -/
structure AnalysisDoc where
  timestamp : Nat
  impacts : List Impact
  summary : List Char
deriving DecidableEq, Repr

/-- An impact as accumulated by `collect_alert_impacts`: the impact plus
the source document's timestamp and summary. -/
structure TaggedImpact where
  impact : Impact
  fileTimestamp : Nat
  summary : List Char
deriving DecidableEq, Repr

/-- A subscriber record of `subscribers.json`. -/
structure Subscriber where
  email : List Char
  threshold : Int
  frequency : Int
  last_sent : Nat
deriving DecidableEq, Repr

/-- `collect_alert_impacts` (cron_job.py lines 73-123): for each document,
if the subscriber's `last_sent` is 0 or the document is strictly newer,
append every impact meeting the threshold, tagged with the document's
timestamp and summary. -/
def collect_alert_impacts (sub : Subscriber) : List AnalysisDoc → List TaggedImpact
  | [] => []
  | d :: ds =>
    (if sub.last_sent = 0 ∨ sub.last_sent < d.timestamp then
      (d.impacts.filter fun i => sub.threshold ≤ i.likelihood).map
        fun i => ⟨i, d.timestamp, d.summary⟩
    else []) ++ collect_alert_impacts sub ds

/-- The dedup key of `deduplicate_impacts`: `(ticker, likelihood)`. -/
def impactKey (t : TaggedImpact) : List Char × Int :=
  (t.impact.ticker, t.impact.likelihood)

/-- The loop of `deduplicate_impacts` (cron_job.py lines 62-71) with its
`seen` set made explicit. -/
def dedupGo (seen : List (List Char × Int)) : List TaggedImpact → List TaggedImpact
  | [] => []
  | x :: xs =>
    if impactKey x ∈ seen then dedupGo seen xs
    else x :: dedupGo (impactKey x :: seen) xs

/-- `deduplicate_impacts` (cron_job.py lines 62-71): keep an impact only
when its `(ticker, likelihood)` key has not been seen before. -/
def deduplicate_impacts (l : List TaggedImpact) : List TaggedImpact :=
  dedupGo [] l

/-- `send_consolidated_alert` (cron_job.py lines 125-151): returns `False`
immediately on an empty impact list, otherwise dedups, groups and formats
the digest and returns the outcome of `send_alert_email`, modelled by the
delivery oracle `sendOk`. -/
def send_consolidated_alert (sendOk : Bool) (impacts : List TaggedImpact) : Bool :=
  if impacts = [] then false else sendOk

/-- `update_last_sent` (cron_job.py lines 25-33): set `last_sent` on every
subscriber record whose email matches, rewriting the whole store. -/
def update_last_sent (subs : List Subscriber) (email : List Char) (ts : Nat) :
    List Subscriber :=
  subs.map fun s => if s.email = email then { s with last_sent := ts } else s

/-- The per-subscriber body of `main` (cron_job.py lines 212-228): collect
the relevant impacts; when non-empty, send the consolidated alert and
advance the subscriber's `last_sent` to the cycle's current time only if
the send reported success. -/
def processSubscriber (sendOk : Bool) (currentTime : Nat)
    (docs : List AnalysisDoc) (subs : List Subscriber) (sub : Subscriber) :
    List Subscriber :=
  let relevant := collect_alert_impacts sub docs
  if relevant ≠ [] then
    if send_consolidated_alert sendOk relevant then
      update_last_sent subs sub.email currentTime
    else subs
  else subs

/-! ## ReasoningClient prompt budget: `send_to_openrouter` (gdelt.py lines 393-410) -/

/-- The greedy block-append loop of `send_to_openrouter`: starting from
`cur` characters already committed, append each per-article block whole
unless doing so would exceed `maxLength`, in which case stop and discard
the remainder (`break`). -/
def appendBlocks (maxLength : Nat) : Nat → List (List Char) → List (List Char)
  | _, [] => []
  | cur, p :: ps =>
    if maxLength < cur + p.length then []
    else p :: appendBlocks maxLength (cur + p.length) ps

/-- The phase-2 full-text prompt: the fixed base prompt followed by the
blocks the budget loop admitted (`prompt2 = prompt_base2 + feeds_text`). -/
def buildPrompt2 (base : List Char) (blocks : List (List Char)) (maxLength : Nat) :
    List Char :=
  base ++ (appendBlocks maxLength base.length blocks).flatten

/-! ## `process_analysis` (gdelt.py lines 259-298) -/

/-- An attempted alert email: fixed recipient and the full analysis text
as body. -/
structure EmailSent where
  recipient : List Char
  body : List Char
deriving DecidableEq, Repr

/-- The fixed recipient of `process_analysis` alerts. -/
def alertRecipient : List Char := "shaginhekvs@gmail.com".data

/-- The impact loop of `process_analysis` (gdelt.py lines 282-292): at the
first impact with likelihood at least 8, send the analysis text to the
fixed recipient and `break`; the last-email time is updated only when the
send succeeds (`sendOk`). -/
def alertLoop (text : List Char) (sendOk : Bool) : List Impact → List EmailSent × Bool
  | [] => ([], false)
  | i :: rest =>
    if 8 ≤ i.likelihood then ([⟨alertRecipient, text⟩], sendOk)
    else alertLoop text sendOk rest

/-- `process_analysis` (gdelt.py lines 259-298): skip everything when
fewer than 3600 seconds have elapsed since the persisted last-email time;
a JSON extraction failure (`parsed = none`) is caught and sends nothing;
otherwise run the impact loop.  Returns the emails attempted and whether
the last-email time was updated. -/
def process_analysis (currentTime lastEmailTime : Int)
    (parsed : Option (List Impact)) (text : List Char) (sendOk : Bool) :
    List EmailSent × Bool :=
  if currentTime - lastEmailTime < 3600 then ([], false)
  else
    match parsed with
    | none => ([], false)
    | some impacts => alertLoop text sendOk impacts

/-! ## Subscriber store: `app.py` lines 238-261 -/

/-- `save_subscriber` (app.py lines 238-249): unconditionally append a new
record with `last_sent = 0` and rewrite the store. -/
def save_subscriber (subs : List Subscriber) (email : List Char)
    (threshold freq : Int) : List Subscriber :=
  subs ++ [⟨email, threshold, freq, 0⟩]

/-- `remove_subscriber` (app.py lines 251-261): keep exactly the records
whose email does not match case-insensitively. -/
def remove_subscriber (subs : List Subscriber) (email : List Char) :
    List Subscriber :=
  subs.filter fun s => lowerStr s.email ≠ lowerStr email

/-! ## Claim C1 -/

/-- C1 counterexample: the claim fails as stated.  A first call for a
stamp whose minute is unpublished (HTTP 404) caches nothing, so a second
call for the same stamp performs a network fetch again — it is not served
from local storage, and the lifetime fetch count for the stamp exceeds
one. -/
theorem c1_counterexample :
    ¬ (download_gz (download_gz none [NetEvent.resp 404 []] 2).cache
        [NetEvent.resp 404 []] 2).fetches = 0 := by decide

/-- Helper for C1: a successful `_download_gz` call leaves the payload in
the cache entry for the stamp. -/
lemma download_gz_cache_of_success {cache : Option (List Nat)}
    {evs : List NetEvent} {r : Nat} {c : List Nat}
    (h : (download_gz cache evs r).outcome = DlOutcome.success c) :
    (download_gz cache evs r).cache = some c := by
  unfold download_gz at h ⊢
  cases cache with
  | some b =>
    simp only [DlOutcome.success.injEq] at h
    simp [h]
  | none =>
    cases ho : (attemptLoop (r + 1) evs).1 with
    | success c0 => simp [ho] at h ⊢; exact h
    | gap => simp [ho] at h
    | failure => simp [ho] at h

/-- C1 (amended): once a call for a stamp returns a payload successfully,
the payload is written to the local store, and every subsequent call for
that stamp performs zero network fetches and returns the same payload
directly from the cache entry. -/
theorem c1_cache_hit_after_success (cache : Option (List Nat))
    (evs evs2 : List NetEvent) (r r2 : Nat) (c : List Nat)
    (h : (download_gz cache evs r).outcome = DlOutcome.success c) :
    download_gz (download_gz cache evs r).cache evs2 r2 =
      ⟨DlOutcome.success c, some c, 0⟩ := by
  rw [download_gz_cache_of_success h]
  rfl

/-- C1 witness: a concrete successful first fetch, after which the second
call is a pure cache hit with zero fetches. -/
theorem c1_cache_hit_after_success_witness :
    download_gz (download_gz none [NetEvent.resp 200 [7]] 2).cache
      [NetEvent.resp 404 []] 2 = ⟨DlOutcome.success [7], some [7], 0⟩ :=
  c1_cache_hit_after_success none [NetEvent.resp 200 [7]] [NetEvent.resp 404 []]
    2 2 [7] (by decide)

/-! ## Claim C2 -/

/-- C2: the filter of `query_gdelt` lowercases the record text but not the
configured keyword, so a keyword containing an uppercase letter can never
match — matching does depend on the letter case of the configured keyword,
contradicting the case-insensitivity the code's own lowercasing sets out
to achieve.  At the failing input (an English record whose title contains
the configured keyword `OpenAI`), the code excludes the record while the
spec's case-insensitive rule (`specRelevantRecord`) emits it. -/
theorem c2_keyword_case_divergence :
    relevantRecord KEYWORDS
        ⟨"ENGLISH".data, "OpenAI releases a new model".data, []⟩ = false ∧
    specRelevantRecord "ENGLISH".data KEYWORDS
        ⟨"ENGLISH".data, "OpenAI releases a new model".data, []⟩ = true := by
  decide

/-! ## Claim C3 -/

/-- C3 counterexample: a malformed line is fatal, not skipped.  For the
payload whose lines are a malformed line followed by a well-formed one,
the stream yields nothing and aborts instead of yielding the record of the
well-formed line. -/
theorem c3_counterexample :
    streamRecords [Line.bad, Line.good 7] ≠
      (goodRecords [Line.bad, Line.good 7], false) := by decide

/-- C3 (amended): a blank line is skipped and streaming continues, but a
malformed line raises and aborts the stream: the records yielded are
exactly those of the well-formed lines strictly before the first malformed
line, and the stream ends in an error iff some line is malformed. -/
theorem c3_malformed_line_aborts {α : Type} (ls : List (Line α)) :
    streamRecords ls =
      (goodRecords (ls.takeWhile fun l => ! l.isBad), ls.any Line.isBad) := by
  induction ls with
  | nil => rfl
  | cons a t ih =>
    cases a <;>
      simp [streamRecords, goodRecords, List.takeWhile_cons, Line.isBad, ih]

/-! ## Claim C4 -/

/-- C4: an impact is collected for a subscriber iff it comes from a
document that is eligible under the watermark — every document when
`last_sent = 0`, and only documents with creation timestamp strictly
greater than `last_sent` otherwise — and its likelihood is at least the
subscriber's threshold; it is tagged with the source document's timestamp
and summary. -/
theorem c4_watermark_selects_documents (sub : Subscriber)
    (docs : List AnalysisDoc) (t : TaggedImpact) :
    t ∈ collect_alert_impacts sub docs ↔
      ∃ d ∈ docs, (sub.last_sent = 0 ∨ sub.last_sent < d.timestamp) ∧
        ∃ i ∈ d.impacts, sub.threshold ≤ i.likelihood ∧
          t = ⟨i, d.timestamp, d.summary⟩ := by
  induction docs with
  | nil => simp [collect_alert_impacts]
  | cons d ds ih =>
    by_cases hc : sub.last_sent = 0 ∨ sub.last_sent < d.timestamp
    · simp only [collect_alert_impacts, if_pos hc, List.mem_append, List.mem_map,
        List.mem_filter, decide_eq_true_eq, ih, List.mem_cons]
      constructor
      · rintro (⟨i, ⟨hi, hl⟩, rfl⟩ | ⟨d2, hd2, h2⟩)
        · exact ⟨d, Or.inl rfl, hc, i, hi, hl, rfl⟩
        · exact ⟨d2, Or.inr hd2, h2⟩
      · rintro ⟨d2, hd2 | hd2, hcond, i, hi, hl, rfl⟩
        · subst hd2; exact Or.inl ⟨i, ⟨hi, hl⟩, rfl⟩
        · exact Or.inr ⟨d2, hd2, hcond, i, hi, hl, rfl⟩
    · simp only [collect_alert_impacts, if_neg hc, List.nil_append, ih, List.mem_cons]
      constructor
      · rintro ⟨d2, hd2, h2⟩; exact ⟨d2, Or.inr hd2, h2⟩
      · rintro ⟨d2, hd2 | hd2, hcond, h2⟩
        · subst hd2; exact absurd hcond hc
        · exact ⟨d2, hd2, hcond, h2⟩

/-! ## Claim C5 -/

/-- Helper for C5: the dedup loop returns a subsequence of its input. -/
lemma dedupGo_sublist (seen : List (List Char × Int)) (l : List TaggedImpact) :
    (dedupGo seen l).Sublist l := by
  induction l generalizing seen with
  | nil => simp [dedupGo]
  | cons x xs ih =>
    by_cases h : impactKey x ∈ seen
    · simp only [dedupGo, if_pos h]
      exact (ih seen).cons x
    · simp only [dedupGo, if_neg h]
      exact (ih (impactKey x :: seen)).cons₂ x

/-- Helper for C5: an element survives the dedup loop iff its key is not
already seen and it is the first element of the list carrying its key. -/
lemma mem_dedupGo (x : TaggedImpact) (seen : List (List Char × Int))
    (l : List TaggedImpact) :
    x ∈ dedupGo seen l ↔ impactKey x ∉ seen ∧
      l.find? (fun y => decide (impactKey y = impactKey x)) = some x := by
  induction l generalizing seen with
  | nil => simp [dedupGo]
  | cons a t ih =>
    by_cases hax : impactKey a = impactKey x
    · have hfind : (a :: t).find? (fun y => decide (impactKey y = impactKey x)) = some a :=
        List.find?_cons_of_pos _ (by simp [hax])
      by_cases ha : impactKey a ∈ seen
      · simp only [dedupGo, if_pos ha, hfind, ih]
        constructor
        · rintro ⟨hn, _⟩; exact absurd (hax ▸ ha) hn
        · rintro ⟨hn, he⟩
          exact absurd (hax ▸ ha) hn
      · simp only [dedupGo, if_neg ha, List.mem_cons, hfind, ih]
        constructor
        · rintro (rfl | ⟨hn, _⟩)
          · exact ⟨hax ▸ ha, rfl⟩
          · exact absurd (by simp [hax]) hn
        · rintro ⟨hn, he⟩
          have : a = x := by injection he
          exact Or.inl this.symm
    · have hfind : (a :: t).find? (fun y => decide (impactKey y = impactKey x)) =
          t.find? (fun y => decide (impactKey y = impactKey x)) :=
        List.find?_cons_of_neg _ (by simp [hax])
      by_cases ha : impactKey a ∈ seen
      · simp only [dedupGo, if_pos ha, hfind, ih]
      · simp only [dedupGo, if_neg ha, List.mem_cons, hfind, ih, List.mem_cons]
        constructor
        · rintro (rfl | ⟨hn, he⟩)
          · exact absurd rfl hax
          · exact ⟨fun hmem => hn (Or.inr hmem), he⟩
        · rintro ⟨hn, he⟩
          refine Or.inr ⟨?_, he⟩
          rintro (h1 | h1)
          · exact hax h1.symm
          · exact hn h1

/-- Helper for C5: the dedup loop output has pairwise distinct keys. -/
lemma pairwise_dedupGo (seen : List (List Char × Int)) (l : List TaggedImpact) :
    (dedupGo seen l).Pairwise fun a b => impactKey a ≠ impactKey b := by
  induction l generalizing seen with
  | nil => simp [dedupGo]
  | cons a t ih =>
    by_cases ha : impactKey a ∈ seen
    · simpa only [dedupGo, if_pos ha] using ih seen
    · simp only [dedupGo, if_neg ha]
      refine List.pairwise_cons.mpr ⟨?_, ih _⟩
      intro b hb heq
      have hmem := ((mem_dedupGo b _ t).mp hb).1
      exact hmem (by simp [heq])

/-- C5: deduplication preserves input order (the result is a subsequence),
leaves no two entries with the same `(ticker, likelihood)` key, and keeps
exactly the first occurrence of each key — so the retained company and
reason are those of the first-seen entry in document-then-impact order. -/
theorem c5_dedup_keeps_first_occurrence (l : List TaggedImpact) :
    (deduplicate_impacts l).Sublist l ∧
    (deduplicate_impacts l).Pairwise (fun a b => impactKey a ≠ impactKey b) ∧
    ∀ x, x ∈ deduplicate_impacts l ↔
      l.find? (fun y => decide (impactKey y = impactKey x)) = some x := by
  refine ⟨dedupGo_sublist [] l, pairwise_dedupGo [] l, fun x => ?_⟩
  simpa using mem_dedupGo x [] l

/-! ## Claim C6 -/

/-- C6: the subscriber's `last_sent` watermark is advanced (for every
store record with the subscriber's email) exactly when the digest send
reports success on a non-empty relevant-impact set; on delivery failure,
or when no relevant impacts exist, the subscriber store is left
unchanged. -/
theorem c6_last_sent_only_on_success (sendOk : Bool) (ct : Nat)
    (docs : List AnalysisDoc) (subs : List Subscriber) (sub : Subscriber) :
    (sendOk = false → processSubscriber sendOk ct docs subs sub = subs) ∧
    (collect_alert_impacts sub docs = [] →
      processSubscriber sendOk ct docs subs sub = subs) ∧
    (sendOk = true → collect_alert_impacts sub docs ≠ [] →
      processSubscriber sendOk ct docs subs sub =
        update_last_sent subs sub.email ct) := by
  refine ⟨fun h => ?_, fun h => ?_, fun h hne => ?_⟩
  · subst h
    simp [processSubscriber, send_consolidated_alert]
  · simp [processSubscriber, h]
  · subst h
    simp [processSubscriber, send_consolidated_alert, hne]

/-- C6 witness: a concrete successful cycle on one subscriber and one
eligible document advances the watermark. -/
theorem c6_last_sent_only_on_success_witness :
    processSubscriber true 100
        [⟨50, [⟨"AAPL".data, "Apple".data, 5, "r".data⟩], "s".data⟩]
        [⟨"a@b.c".data, 1, 1, 0⟩] ⟨"a@b.c".data, 1, 1, 0⟩ =
      update_last_sent [⟨"a@b.c".data, 1, 1, 0⟩] "a@b.c".data 100 :=
  (c6_last_sent_only_on_success true 100
      [⟨50, [⟨"AAPL".data, "Apple".data, 5, "r".data⟩], "s".data⟩]
      [⟨"a@b.c".data, 1, 1, 0⟩] ⟨"a@b.c".data, 1, 1, 0⟩).2.2 rfl (by decide)

/-! ## Claim C7 -/

/-- The fixed phase-2 byte budget of `send_to_openrouter`
(gdelt.py line 397). -/
def maxPromptLength : Nat := 130000

/-- Helper for C7: the budget loop admits a prefix of the block list whose
total size fits the remaining budget, and stops exactly at the first block
whose addition would exceed it. -/
lemma appendBlocks_spec (B : Nat) (blocks : List (List Char)) :
    ∀ cur, cur ≤ B → ∃ k,
      appendBlocks B cur blocks = blocks.take k ∧
      cur + ((blocks.take k).map List.length).sum ≤ B ∧
      (k < blocks.length →
        B < cur + ((blocks.take (k + 1)).map List.length).sum) := by
  induction blocks with
  | nil =>
    intro cur h
    exact ⟨0, rfl, by simpa using h, by simp⟩
  | cons p ps ih =>
    intro cur h
    by_cases hov : B < cur + p.length
    · refine ⟨0, ?_, by simpa using h, fun _ => ?_⟩
      · simp [appendBlocks, hov]
      · simpa using hov
    · push_neg at hov
      obtain ⟨k, h1, h2, h3⟩ := ih (cur + p.length) hov
      refine ⟨k + 1, ?_, ?_, ?_⟩
      · simp only [appendBlocks, if_neg (not_lt.mpr hov), h1, List.take_succ_cons]
      · simpa [add_assoc] using h2
      · intro hk
        have := h3 (by simpa using Nat.lt_of_succ_lt_succ (by simpa using hk))
        simpa [add_assoc] using this

/-- C7: whenever the base prompt fits the budget (as the fixed base prompt
of the code does), the constructed phase-2 prompt never exceeds the
budget; the appended article blocks are a prefix of the selection-ordered
block list — whole blocks, never truncated — and appending stops at the
first block whose addition would exceed the budget, discarding the
remainder. -/
theorem c7_prompt_budget (base : List Char) (blocks : List (List Char))
    (B : Nat) (hbase : base.length ≤ B) :
    (buildPrompt2 base blocks B).length ≤ B ∧
    ∃ k, appendBlocks B base.length blocks = blocks.take k ∧
      (k < blocks.length →
        B < base.length + ((blocks.take (k + 1)).map List.length).sum) := by
  obtain ⟨k, h1, h2, h3⟩ := appendBlocks_spec B blocks base.length hbase
  refine ⟨?_, k, h1, h3⟩
  have : (buildPrompt2 base blocks B).length =
      base.length + ((blocks.take k).map List.length).sum := by
    simp [buildPrompt2, h1, List.length_flatten]
  omega

/-- C7 witness: a concrete base and block list under the code's fixed
130000 budget. -/
theorem c7_prompt_budget_witness :
    (buildPrompt2 "ab".data ["cd".data, "efg".data, "h".data]
        maxPromptLength).length ≤ maxPromptLength ∧
    ∃ k, appendBlocks maxPromptLength ("ab".data).length
          ["cd".data, "efg".data, "h".data] =
        (["cd".data, "efg".data, "h".data] : List (List Char)).take k ∧
      (k < (["cd".data, "efg".data, "h".data] : List (List Char)).length →
        maxPromptLength < ("ab".data).length +
          (((["cd".data, "efg".data, "h".data] : List (List Char)).take
            (k + 1)).map List.length).sum) :=
  c7_prompt_budget "ab".data ["cd".data, "efg".data, "h".data]
    maxPromptLength (by decide)

/-! ## Claim C8 -/

/-- C8 counterexample: once retries are exhausted for one stamp, the error
is not confined to that stamp.  With a first stamp whose three attempts
all return HTTP 500 and a second stamp whose payload is already cached,
the cycle aborts and the second stamp's payload is never yielded — the
caller does not skip and continue. -/
theorem c8_counterexample :
    (runCycle [⟨none, [NetEvent.resp 500 [], NetEvent.resp 500 [],
        NetEvent.resp 500 []]⟩, ⟨some [1], []⟩]).2 = true ∧
    [1] ∉ (runCycle [⟨none, [NetEvent.resp 500 [], NetEvent.resp 500 [],
        NetEvent.resp 500 []]⟩, ⟨some [1], []⟩]).1 := by decide

/-- Helper for C8: one transient-status attempt defers to the remaining
attempts and adds one fetch. -/
lemma attemptLoop_transient (n : Nat) (rest : List NetEvent) :
    attemptLoop (n + 1) (NetEvent.resp 500 [] :: rest) =
      ((attemptLoop n rest).1, (attemptLoop n rest).2 + 1) := by
  simp [attemptLoop]

/-- C8 (amended): a transient HTTP failure (a non-200/404 response) is
retried with backoff up to the configured attempt count, after which the
fetch fails hard; but the hard error propagates out of the minute
iterator and aborts the whole cycle — the payloads yielded are exactly
those of the stamps strictly before the first failing stamp (404 gaps
skipped) — and a timeout exception is not retried at all: it fails the
stamp after a single network call. -/
theorem c8_failure_aborts_cycle :
    (∀ ss : List StampFetch,
      runCycle ss =
        ((ss.takeWhile fun s =>
            ! (download_gz s.cache s.events 2).outcome.isFailure).filterMap
          (fun s => (download_gz s.cache s.events 2).outcome.payload),
         ss.any fun s => (download_gz s.cache s.events 2).outcome.isFailure)) ∧
    (∀ r : Nat, attemptLoop (r + 1)
        (List.replicate (r + 1) (NetEvent.resp 500 [])) =
      (DlOutcome.failure, r + 1)) ∧
    (∀ (evs : List NetEvent) (n : Nat),
      attemptLoop (n + 1) (NetEvent.timeout :: evs) = (DlOutcome.failure, 1)) := by
  refine ⟨fun ss => ?_, fun r => ?_, fun evs n => rfl⟩
  · induction ss with
    | nil => rfl
    | cons s t ih =>
      cases ho : (download_gz s.cache s.events 2).outcome with
      | success b =>
        simp [runCycle, ho, DlOutcome.isFailure, DlOutcome.payload,
          List.takeWhile_cons, List.any_cons, ih]
      | gap =>
        simp [runCycle, ho, DlOutcome.isFailure, DlOutcome.payload,
          List.takeWhile_cons, List.any_cons, ih]
      | failure =>
        simp [runCycle, ho, DlOutcome.isFailure, List.takeWhile_cons,
          List.any_cons]
  · induction r with
    | zero => rfl
    | succ n ih =>
      rw [List.replicate_succ, attemptLoop_transient, ih]

/-! ## Claim C9 -/

/-- C9 counterexample: `save_subscriber` appends unconditionally, so
subscribing the same email twice from the empty store yields two records
sharing that email — email is not enforced as a unique key. -/
theorem c9_counterexample :
    ¬ ((save_subscriber (save_subscriber [] "a@b.c".data 8 1)
        "a@b.c".data 8 1).map Subscriber.email).Nodup := by decide

/-- Helper for C9: updating `last_sent` does not change any record's
email. -/
lemma update_last_sent_emails (subs : List Subscriber) (email : List Char)
    (ts : Nat) :
    (update_last_sent subs email ts).map Subscriber.email =
      subs.map Subscriber.email := by
  induction subs with
  | nil => rfl
  | cons s t ih =>
    by_cases h : s.email = email <;>
      simp only [update_last_sent, List.map_cons, if_pos, if_neg, h] at ih ⊢ <;>
      simp [update_last_sent, h, ih]

/-- C9 (amended): unsubscribe and last-sent updates preserve email
uniqueness of the store, and subscribe preserves it only when the new
email is not already present — the code never checks this, so a repeated
subscribe breaks uniqueness (see the counterexample). -/
theorem c9_email_uniqueness_conditional (subs : List Subscriber)
    (email : List Char) (th fr : Int) (ts : Nat) :
    ((subs.map Subscriber.email).Nodup → email ∉ subs.map Subscriber.email →
      ((save_subscriber subs email th fr).map Subscriber.email).Nodup) ∧
    ((subs.map Subscriber.email).Nodup →
      ((remove_subscriber subs email).map Subscriber.email).Nodup) ∧
    ((subs.map Subscriber.email).Nodup →
      ((update_last_sent subs email ts).map Subscriber.email).Nodup) := by
  refine ⟨fun h hmem => ?_, fun h => ?_, fun h => ?_⟩
  · simp only [save_subscriber, List.map_append, List.map_cons, List.map_nil]
    rw [List.nodup_append]
    refine ⟨h, List.nodup_singleton _, ?_⟩
    intro a ha hb
    simp at hb
    subst hb
    exact hmem ha
  · exact h.sublist ((List.filter_sublist subs).map Subscriber.email)
  · rwa [update_last_sent_emails]

/-- C9 witness: a concrete subscribe of a fresh email onto a one-record
store keeps the emails distinct. -/
theorem c9_email_uniqueness_conditional_witness :
    ((save_subscriber [⟨"a@b.c".data, 8, 1, 0⟩] "x@y.z".data 5 6).map
      Subscriber.email).Nodup :=
  (c9_email_uniqueness_conditional [⟨"a@b.c".data, 8, 1, 0⟩] "x@y.z".data
    5 6 0).1 (by decide) (by decide)

/-! ## Claim C10 -/

/-- Helper for C10: the alert loop attempts at most one email. -/
lemma alertLoop_le_one (text : List Char) (ok : Bool) (l : List Impact) :
    (alertLoop text ok l).1.length ≤ 1 := by
  induction l with
  | nil => simp [alertLoop]
  | cons i rest ih =>
    by_cases h : (8:Int) ≤ i.likelihood <;> simp [alertLoop, h, ih]

/-- Helper for C10: every email the alert loop attempts goes to the fixed
recipient with the full analysis text as body. -/
lemma alertLoop_mem (text : List Char) (ok : Bool) (l : List Impact) :
    ∀ e ∈ (alertLoop text ok l).1, e = ⟨alertRecipient, text⟩ := by
  induction l with
  | nil => simp [alertLoop]
  | cons i rest ih =>
    by_cases h : (8:Int) ≤ i.likelihood
    · simp [alertLoop, h]
    · simpa [alertLoop, h] using ih

/-- Helper for C10: the alert loop sends exactly one email at the first
impact with likelihood at least 8, ignoring everything after it. -/
lemma alertLoop_first (text : List Char) (ok : Bool) :
    ∀ (pre : List Impact) (q : Impact) (post : List Impact),
      (∀ i ∈ pre, i.likelihood < 8) → 8 ≤ q.likelihood →
      alertLoop text ok (pre ++ q :: post) = ([⟨alertRecipient, text⟩], ok) := by
  intro pre
  induction pre with
  | nil => intro q post _ hq; simp [alertLoop, hq]
  | cons i rest ih =>
    intro q post hpre hq
    have hi : ¬ (8:Int) ≤ i.likelihood := not_le.mpr (hpre i (by simp))
    simp only [List.cons_append, alertLoop, if_neg hi]
    exact ih q post (fun j hj => hpre j (by simp [hj])) hq

/-- C10: each invocation of `process_analysis` attempts at most one alert
email; it sends nothing when fewer than 3600 seconds have elapsed since
the persisted last-email time; every attempted email goes to the single
fixed recipient with the full analysis text; and past the time gate it
stops at the first impact with likelihood at least 8, regardless of how
many qualifying impacts follow. -/
theorem c10_single_throttled_alert (ct lt : Int) (parsed : Option (List Impact))
    (text : List Char) (sendOk : Bool) :
    (process_analysis ct lt parsed text sendOk).1.length ≤ 1 ∧
    (ct - lt < 3600 → process_analysis ct lt parsed text sendOk = ([], false)) ∧
    (∀ e ∈ (process_analysis ct lt parsed text sendOk).1,
      e = ⟨alertRecipient, text⟩) ∧
    (∀ (pre : List Impact) (q : Impact) (post : List Impact),
      parsed = some (pre ++ q :: post) → 3600 ≤ ct - lt →
      (∀ i ∈ pre, i.likelihood < 8) → 8 ≤ q.likelihood →
      process_analysis ct lt parsed text sendOk =
        ([⟨alertRecipient, text⟩], sendOk)) := by
  refine ⟨?_, fun h => ?_, ?_, fun pre q post hp hgate hpre hq => ?_⟩
  · unfold process_analysis
    split
    · simp
    · cases parsed with
      | none => simp
      | some impacts => simpa using alertLoop_le_one text sendOk impacts
  · simp [process_analysis, h]
  · unfold process_analysis
    split
    · simp
    · cases parsed with
      | none => simp
      | some impacts => exact alertLoop_mem text sendOk impacts
  · subst hp
    rw [process_analysis, if_neg (not_lt.mpr hgate)]
    exact alertLoop_first text sendOk pre q post hpre hq

/-- C10 witness: with the time gate satisfied and impacts of likelihood 3
then 9, exactly one email to the fixed recipient is attempted. -/
theorem c10_single_throttled_alert_witness :
    process_analysis 10000 0
        (some [⟨"A".data, "B".data, 3, "r".data⟩,
               ⟨"A".data, "B".data, 9, "r".data⟩]) "t".data true =
      ([⟨alertRecipient, "t".data⟩], true) :=
  (c10_single_throttled_alert 10000 0
      (some [⟨"A".data, "B".data, 3, "r".data⟩,
             ⟨"A".data, "B".data, 9, "r".data⟩]) "t".data true).2.2.2
    [⟨"A".data, "B".data, 3, "r".data⟩] ⟨"A".data, "B".data, 9, "r".data⟩ []
    rfl (by decide) (by decide) (by decide)

end GdeltAnalysis
